import Mathlib

/-!
# Dataflow runner wire messages

A shallow embedding of `pkg/beam/runners/dataflow/messages.go`: the wire record
types with their `json` struct tags, the builder functions, the display-value
classifier `findDisplayDataType`, and the encoder `newMsg`.

Conventions of the embedding.

* A Go `string` is a `GoString`, an arbitrary sequence of bytes; a string
  literal of the source is `goString "..."`, the UTF-8 bytes of its text.
* A Go pointer `*T` that may be nil is `Option T`.  A builder that returns
  `&T{...}` returns the record itself: such a pointer is never nil.
* A Go slice is a `List` (a nil slice and an empty slice both have length 0,
  which is all that `omitempty` looks at).  A Go map with string keys is a list
  of key/value pairs.
* A Go `interface{}` value is a `GoValue`, a dynamic type together with its
  payload.  The nil interface, the ten predeclared integer types, `bool`,
  `string`, defined types whose underlying type is `string` or `int` (without
  methods), channels, and struct values with exported untagged `interface{}`
  fields (without methods) are given by their payload.  A value of any other
  dynamic type (a floating-point number, a slice, a map, a pointer, a value
  whose type has a `String()` or `Error()` method, ...) is given by what the
  libraries `fmt` and `encoding/json` make of it.
* The wire document is kept as its JSON syntax tree (`Json`), objects being
  ordered key/value lists in emission order and strings being Unicode text.
  `json.Marshal` writes a Go string as the text `jsonText` decodes from it.
* `newMsg` panics when `json.Marshal` fails; a panic is `Except.error`.
-/

namespace Dataflow

/-! ## Go strings -/

/-- A byte. -/
abbrev Byte := Fin 256

/-- A Go `string`: a sequence of bytes, valid UTF-8 or not. -/
abbrev GoString := List Byte

/-- The byte with a given value (below 256 wherever it is used). -/
def byte (n : Nat) : Byte := ⟨n % 256, Nat.mod_lt _ (by decide)⟩

/-- The UTF-8 encoding of a character. -/
def utf8EncodeChar (c : Char) : List Byte :=
  let n := c.toNat
  if n < 0x80 then [byte n]
  else if n < 0x800 then [byte (0xC0 + n / 64), byte (0x80 + n % 64)]
  else if n < 0x10000 then
    [byte (0xE0 + n / 4096), byte (0x80 + n / 64 % 64), byte (0x80 + n % 64)]
  else
    [byte (0xF0 + n / 262144), byte (0x80 + n / 4096 % 64),
     byte (0x80 + n / 64 % 64), byte (0x80 + n % 64)]

/-- The UTF-8 encoding of a sequence of characters. -/
def encodeChars : List Char → GoString
  | [] => []
  | c :: cs => utf8EncodeChar c ++ encodeChars cs

/-- The Go string holding a given text: its UTF-8 bytes.  This is the value of
a string literal of the source. -/
def goString (s : String) : GoString := encodeChars s.data

/-- The replacement character U+FFFD (`utf8.RuneError`). -/
def runeError : Char := Char.ofNat 0xFFFD

/-- A continuation byte, `0x80` to `0xBF`. -/
def isCont (b : Byte) : Bool := 0x80 ≤ b.val && b.val ≤ 0xBF

/-- The function `utf8.DecodeRuneInString`: the first character of a non-empty
Go string and the number of bytes it takes; U+FFFD and one byte when the string
does not start with a valid encoding. -/
def decodeRune : GoString → Char × Nat
  | [] => (runeError, 0)
  | b0 :: rest =>
    if b0.val < 0x80 then (Char.ofNat b0.val, 1)
    else if 0xC2 ≤ b0.val ∧ b0.val ≤ 0xDF then
      match rest with
      | b1 :: _ =>
        if isCont b1 then (Char.ofNat (b0.val % 32 * 64 + b1.val % 64), 2) else (runeError, 1)
      | [] => (runeError, 1)
    else if 0xE0 ≤ b0.val ∧ b0.val ≤ 0xEF then
      match rest with
      | b1 :: b2 :: _ =>
        if (if b0.val = 0xE0 then 0xA0 else 0x80) ≤ b1.val ∧
            b1.val ≤ (if b0.val = 0xED then 0x9F else 0xBF) ∧ isCont b2 then
          (Char.ofNat (b0.val % 16 * 4096 + b1.val % 64 * 64 + b2.val % 64), 3)
        else (runeError, 1)
      | _ => (runeError, 1)
    else if 0xF0 ≤ b0.val ∧ b0.val ≤ 0xF4 then
      match rest with
      | b1 :: b2 :: b3 :: _ =>
        if (if b0.val = 0xF0 then 0x90 else 0x80) ≤ b1.val ∧
            b1.val ≤ (if b0.val = 0xF4 then 0x8F else 0xBF) ∧ isCont b2 ∧ isCont b3 then
          (Char.ofNat
            (b0.val % 8 * 262144 + b1.val % 64 * 4096 + b2.val % 64 * 64 + b3.val % 64), 4)
        else (runeError, 1)
      | _ => (runeError, 1)
    else (runeError, 1)

/-- The loop of the string encoder of `encoding/json`: character after
character, an invalid byte giving U+FFFD and being skipped alone.  The first
argument bounds the number of steps; the length of the string is enough. -/
def decodeLoop : Nat → GoString → List Char
  | 0, _ => []
  | _ + 1, [] => []
  | fuel + 1, b :: bs =>
    (decodeRune (b :: bs)).1 :: decodeLoop fuel ((b :: bs).drop (decodeRune (b :: bs)).2)

/-- The text of the JSON string `json.Marshal` writes for a Go string: the
string decoded as UTF-8, every byte that is not part of a valid encoding
replaced by U+FFFD. -/
def jsonText (s : GoString) : String := String.mk (decodeLoop s.length s)

/-- Bytewise lexicographic order of Go strings (`strings.Compare` below 0). -/
def bytesLess : GoString → GoString → Bool
  | [], [] => false
  | [], _ :: _ => true
  | _ :: _, [] => false
  | a :: as, b :: bs =>
    if a.val < b.val then true
    else if b.val < a.val then false
    else bytesLess as bs

/-! ## JSON documents -/

/-- A JSON document as a syntax tree; the members of an object are kept in the
order in which they are emitted. -/
inductive Json where
  | null
  | bool (b : Bool)
  /-- An integer number. -/
  | num (n : Int)
  /-- A number that is not an integer, by its literal. -/
  | real (literal : String)
  | str (s : String)
  | arr (elems : List Json)
  | obj (members : List (String × Json))

/-- The keys of an object, in order (no keys for a document that is not an object). -/
def Json.keys : Json → List String
  | .obj members => members.map Prod.fst
  | _ => []

/-- The value stored under a key of an object, if any. -/
def Json.lookup (key : String) : Json → Option Json
  | .obj members => (members.find? (fun kv => kv.1 == key)).map Prod.snd
  | _ => none

/-- The error of `json.Marshal`. -/
inductive MarshalError where
  /-- An `UnsupportedTypeError`, naming the Go type. -/
  | unsupportedType (goType : String)
  /-- Any other error reported while encoding. -/
  | other (msg : String)

/-! ## Runtime values -/

/-- The ten predeclared integer types listed in the first case of the type
switch of `findDisplayDataType`. -/
inductive IntKind where
  | int | int8 | int16 | int32 | int64
  | uint | uint8 | uint16 | uint32 | uint64
  deriving DecidableEq, Repr

/-- A Go `interface{}` value: dynamic type and payload. -/
inductive GoValue where
  /-- The nil interface value. -/
  | nil
  /-- A value of one of the predeclared integer types. -/
  | int (k : IntKind) (n : Int)
  /-- A value of type `bool`. -/
  | bool (b : Bool)
  /-- A value of type `string`. -/
  | string (s : GoString)
  /-- A value of a defined type `type T string` without methods. -/
  | namedString (s : GoString)
  /-- A value of a defined type `type T int` without methods. -/
  | namedInt (n : Int)
  /-- A channel of type `chan elem`, given by its address (0 for a nil channel). -/
  | chan (elem : String) (addr : Nat)
  /-- A struct value without methods whose fields are exported, untagged and
  of type `interface{}`, in declaration order. -/
  | struct (fields : List (String × GoValue))
  /-- A value of any other dynamic type: a floating-point or complex number, a
  slice, an array, a map, a pointer, a function, a struct of another shape, a
  value whose type has a `String()` or `Error()` method.  The libraries `fmt`
  and `encoding/json` are not part of this file, so such a value is given by
  what they make of it where it stands: the text `fmt` renders it to under
  `%v`, and the outcome of `json.Marshal` on it. -/
  | other (rendered : GoString) (marshalled : Except MarshalError Json)

/-- Dynamic type is one of the predeclared integer types. -/
def GoValue.isInteger : GoValue → Bool
  | .int _ _ => true
  | _ => false

/-- Dynamic type is `bool`. -/
def GoValue.isBoolean : GoValue → Bool
  | .bool _ => true
  | _ => false

/-- Dynamic type is `string`. -/
def GoValue.isString : GoValue → Bool
  | .string _ => true
  | _ => false

/-! ## `fmt.Sprintf("%v", value)` -/

/-- Decimal rendering of an integer, as the `%v` verb prints it. -/
def formatInt : Int → String
  | .ofNat m => Nat.repr m
  | .negSucc m => "-" ++ Nat.repr (m + 1)

/-- Rendering of a pointer-like value under `%v`: `<nil>` for the zero address,
otherwise `0x` followed by the lower-case hexadecimal digits. -/
def formatPointer (addr : Nat) : String :=
  if addr = 0 then "<nil>" else "0x" ++ String.mk (Nat.toDigits 16 addr)

mutual
/-- The Go string `fmt.Sprintf("%v", value)` produces. -/
def sprintV : GoValue → GoString
  | .nil => goString "<nil>"
  | .int _ n => goString (formatInt n)
  | .bool b => goString (if b then "true" else "false")
  | .string s => s
  | .namedString s => s
  | .namedInt n => goString (formatInt n)
  | .chan _ addr => goString (formatPointer addr)
  | .struct fields => goString "\x7b" ++ sprintFields fields ++ goString "\x7d"
  | .other rendered _ => rendered
/-- The fields of a struct under `%v`: the field values separated by one space. -/
def sprintFields : List (String × GoValue) → GoString
  | [] => []
  | [(_, v)] => sprintV v
  | (_, v) :: f :: fs => sprintV v ++ goString " " ++ sprintFields (f :: fs)
end

/-! ## `json.Marshal` on runtime values -/

mutual
/-- `json.Marshal` on the value held by an `interface{}`. -/
def marshalValue : GoValue → Except MarshalError Json
  | .nil => .ok .null
  | .int _ n => .ok (.num n)
  | .bool b => .ok (.bool b)
  | .string s => .ok (.str (jsonText s))
  | .namedString s => .ok (.str (jsonText s))
  | .namedInt n => .ok (.num n)
  | .chan elem _ => .error (.unsupportedType ("chan " ++ elem))
  | .struct fields =>
    match marshalFields fields with
    | .ok members => .ok (.obj members)
    | .error e => .error e
  | .other _ marshalled => marshalled
/-- The members of a struct value: one per field, under the field name. -/
def marshalFields : List (String × GoValue) → Except MarshalError (List (String × Json))
  | [] => .ok []
  | (name, v) :: fs =>
    match marshalValue v with
    | .error e => .error e
    | .ok j =>
      match marshalFields fs with
      | .error e => .error e
      | .ok members => .ok ((name, j) :: members)
end

/-! ## Wire record types -/

/-- Modelled from the spec: `graph.CoderRef` is declared in package `graph`,
outside this file; the spec treats it as a coder reference "owned by the
external graph model, treated as an opaque serializable value here".  It is
represented by the outcome of `json.Marshal` on it. -/
structure CoderRef where
  marshalled : Except MarshalError Json

/-- The record `displayData`. -/
structure displayData where
  Key : GoString := []
  Label : GoString := []
  Namespace : GoString := []
  ShortValue : GoString := []
  Type_ : GoString := []
  Value : GoValue := .nil

/-- The record `pipelineOptions` (Job/Environment/SdkPipelineOptions). -/
structure pipelineOptions where
  DisplayData : List (Option displayData) := []

/-- The record `userAgent` (Job/Environment/UserAgent). -/
structure userAgent where
  Name : GoString := []
  Version : GoString := []

/-- The record `version` (Job/Environment/Version). -/
structure version where
  JobType : GoString := []
  Major : GoString := []

/-- The record `output`. -/
structure output where
  UserName : GoString := []
  OutputName : GoString := []
  Encoding : Option CoderRef := none

/-- The record `integer`. -/
structure integer where
  Type_ : GoString := []
  Value : Int := 0

/-- The record `customSourceInputStepSpec`. -/
structure customSourceInputStepSpec where
  Type_ : GoString := []
  SerializedSource : GoString := []

/-- The record `customSourceInputStepMetadata`. -/
structure customSourceInputStepMetadata where
  EstimatedSizeBytes : Option integer := none

/-- The record `customSourceInputStep`. -/
structure customSourceInputStep where
  Spec : customSourceInputStepSpec := {}
  Metadata : Option customSourceInputStepMetadata := none

/-- The record `outputReference`. -/
structure outputReference where
  Type_ : GoString := []
  StepName : GoString := []
  OutputName : GoString := []

/-- The record `properties` (Step/Properties). -/
structure properties where
  UserName : GoString := []
  DisplayData : List displayData := []
  CustomSourceInputStep : Option customSourceInputStep := none
  ParallelInput : Option outputReference := none
  NonParallelInputs : List (GoString × Option outputReference) := []
  Format : GoString := []
  SerializedFn : GoString := []
  OutputInfo : List output := []

/-! ## Builders -/

/-- The builder `newInteger`. -/
def newInteger (value : Int) : integer :=
  { Type_ := goString "http://schema.org/Integer", Value := value }

/-- The builder `newCustomSourceInputStep`; `5 << 20` is the 5 MB estimate. -/
def newCustomSourceInputStep (serializedSource : GoString) : customSourceInputStep :=
  { Spec := { Type_ := goString "CustomSourcesType", SerializedSource := serializedSource },
    Metadata := some { EstimatedSizeBytes := some (newInteger (((5 <<< 20 : Nat) : Int))) } }

/-- The builder `newOutputReference`. -/
def newOutputReference (step output : GoString) : outputReference :=
  { Type_ := goString "OutputReference", StepName := step, OutputName := output }

/-- The classifier `findDisplayDataType`: a type switch on the dynamic type. -/
def findDisplayDataType (value : GoValue) : GoString × GoValue :=
  match value with
  | .int _ _ => (goString "INTEGER", value)
  | .bool _ => (goString "BOOLEAN", value)
  | .string _ => (goString "STRING", value)
  | _ => (goString "STRING", .string (sprintV value))

/-- The builder `newDisplayData`. -/
def newDisplayData (key label namespace_ : GoString) (value : GoValue) : displayData :=
  let (t, v) := findDisplayDataType value
  { Key := key, Label := label, Namespace := namespace_, Type_ := t, Value := v }

/-! ## `json.Marshal` on the wire records

Each encoder follows the `json` tags of its record, field by field in
declaration order.  A field tagged `omitempty` is left out when it holds the
empty value of its type: the empty string, the integer 0, a slice or map of
length 0, a nil pointer, a nil interface. -/

/-- A `string` field tagged `omitempty`: left out when the string has length 0,
otherwise written as the JSON string `json.Marshal` makes of it. -/
def omitEmptyString (key : String) (s : GoString) : List (String × Json) :=
  if s.length = 0 then [] else [(key, .str (jsonText s))]

/-- An `int` field tagged `omitempty`. -/
def omitEmptyInt (key : String) (n : Int) : List (String × Json) :=
  if n = 0 then [] else [(key, .num n)]

/-- A slice field tagged `omitempty`, its elements already encoded. -/
def omitEmptySlice (key : String) (elems : List Json) : List (String × Json) :=
  if elems.length = 0 then [] else [(key, .arr elems)]

/-- A map field tagged `omitempty`, its entries already encoded. -/
def omitEmptyMap (key : String) (entries : List (String × Json)) : List (String × Json) :=
  if entries.length = 0 then [] else [(key, .obj entries)]

/-- A pointer field tagged `omitempty`, its target already encoded. -/
def omitEmptyPtr (key : String) (target : Option Json) : List (String × Json) :=
  match target with
  | none => []
  | some j => [(key, j)]

/-- The record `integer`: `@type`, `value`. -/
def marshalInteger (i : integer) : Json :=
  .obj (omitEmptyString "@type" i.Type_ ++ omitEmptyInt "value" i.Value)

/-- The record `customSourceInputStepSpec`: `@type`, `serialized_source`. -/
def marshalCustomSourceInputStepSpec (s : customSourceInputStepSpec) : Json :=
  .obj (omitEmptyString "@type" s.Type_ ++ omitEmptyString "serialized_source" s.SerializedSource)

/-- The record `customSourceInputStepMetadata`: `estimated_size_bytes`. -/
def marshalCustomSourceInputStepMetadata (m : customSourceInputStepMetadata) : Json :=
  .obj (omitEmptyPtr "estimated_size_bytes" (m.EstimatedSizeBytes.map marshalInteger))

/-- The record `customSourceInputStep`: `spec` (always emitted), `metadata`. -/
def marshalCustomSourceInputStep (c : customSourceInputStep) : Json :=
  .obj ([("spec", marshalCustomSourceInputStepSpec c.Spec)] ++
    omitEmptyPtr "metadata" (c.Metadata.map marshalCustomSourceInputStepMetadata))

/-- The record `outputReference`: `@type`, `step_name`, `output_name`. -/
def marshalOutputReference (r : outputReference) : Json :=
  .obj (omitEmptyString "@type" r.Type_ ++ omitEmptyString "step_name" r.StepName ++
    omitEmptyString "output_name" r.OutputName)

/-- The record `userAgent`: `name`, `version`. -/
def marshalUserAgent (u : userAgent) : Json :=
  .obj (omitEmptyString "name" u.Name ++ omitEmptyString "version" u.Version)

/-- The record `version`: `job_type`, `major`. -/
def marshalVersion (v : version) : Json :=
  .obj (omitEmptyString "job_type" v.JobType ++ omitEmptyString "major" v.Major)

/-- An `interface{}` field tagged `omitempty`: left out for the nil interface,
otherwise the encoding of the value it holds. -/
def omitEmptyInterface (key : String) (v : GoValue) :
    Except MarshalError (List (String × Json)) :=
  match v with
  | .nil => .ok []
  | _ =>
    match marshalValue v with
    | .error e => .error e
    | .ok j => .ok [(key, j)]

/-- The record `displayData`: `key`, `label`, `namespace`, `shortValue`, `type`,
`value`. -/
def marshalDisplayData (d : displayData) : Except MarshalError Json :=
  match omitEmptyInterface "value" d.Value with
  | .error e => .error e
  | .ok value =>
    .ok (.obj (omitEmptyString "key" d.Key ++ omitEmptyString "label" d.Label ++
      omitEmptyString "namespace" d.Namespace ++ omitEmptyString "shortValue" d.ShortValue ++
      omitEmptyString "type" d.Type_ ++ value))

/-- A slice `[]displayData`, element by element. -/
def marshalDisplayDataSlice : List displayData → Except MarshalError (List Json)
  | [] => .ok []
  | d :: ds =>
    match marshalDisplayData d with
    | .error e => .error e
    | .ok j =>
      match marshalDisplayDataSlice ds with
      | .error e => .error e
      | .ok js => .ok (j :: js)

/-- A slice `[]*displayData`: a nil element encodes as `null`. -/
def marshalDisplayDataPtrSlice : List (Option displayData) → Except MarshalError (List Json)
  | [] => .ok []
  | none :: ds =>
    match marshalDisplayDataPtrSlice ds with
    | .error e => .error e
    | .ok js => .ok (.null :: js)
  | some d :: ds =>
    match marshalDisplayData d with
    | .error e => .error e
    | .ok j =>
      match marshalDisplayDataPtrSlice ds with
      | .error e => .error e
      | .ok js => .ok (j :: js)

/-- The record `pipelineOptions`: `display_data`. -/
def marshalPipelineOptions (p : pipelineOptions) : Except MarshalError Json :=
  match marshalDisplayDataPtrSlice p.DisplayData with
  | .error e => .error e
  | .ok dd => .ok (.obj (omitEmptySlice "display_data" dd))

/-- The record `output`: `user_name`, `output_name`, `encoding`. -/
def marshalOutput (o : output) : Except MarshalError Json :=
  match o.Encoding with
  | none =>
    .ok (.obj (omitEmptyString "user_name" o.UserName ++
      omitEmptyString "output_name" o.OutputName))
  | some c =>
    match c.marshalled with
    | .error e => .error e
    | .ok j =>
      .ok (.obj (omitEmptyString "user_name" o.UserName ++
        omitEmptyString "output_name" o.OutputName ++ [("encoding", j)]))

/-- A slice `[]output`, element by element. -/
def marshalOutputSlice : List output → Except MarshalError (List Json)
  | [] => .ok []
  | o :: os =>
    match marshalOutput o with
    | .error e => .error e
    | .ok j =>
      match marshalOutputSlice os with
      | .error e => .error e
      | .ok js => .ok (j :: js)

/-- Insertion of a map entry into a list of entries sorted by key. -/
def insertEntry (e : GoString × Json) : List (GoString × Json) → List (GoString × Json)
  | [] => [e]
  | x :: xs => if bytesLess e.1 x.1 then e :: x :: xs else x :: insertEntry e xs

/-- The entries of a map sorted by key, bytewise. -/
def sortEntries : List (GoString × Json) → List (GoString × Json)
  | [] => []
  | x :: xs => insertEntry x (sortEntries xs)

/-- A map `map[string]*outputReference`: the entries are sorted by key, each
key is written as a JSON string, and a nil value encodes as `null`. -/
def marshalOutputReferenceMap (m : List (GoString × Option outputReference)) :
    List (String × Json) :=
  (sortEntries (m.map (fun kv =>
    (kv.1, match kv.2 with
      | none => Json.null
      | some r => marshalOutputReference r)))).map (fun kv => (jsonText kv.1, kv.2))

/-- The record `properties`: `user_name`, `display_data`,
`custom_source_step_input`, `parallel_input`, `non_parallel_inputs`, `format`,
`serialized_fn`, `output_info`. -/
def marshalProperties (p : properties) : Except MarshalError Json :=
  match marshalDisplayDataSlice p.DisplayData with
  | .error e => .error e
  | .ok dd =>
    match marshalOutputSlice p.OutputInfo with
    | .error e => .error e
    | .ok oi =>
      .ok (.obj (omitEmptyString "user_name" p.UserName ++
        omitEmptySlice "display_data" dd ++
        omitEmptyPtr "custom_source_step_input"
          (p.CustomSourceInputStep.map marshalCustomSourceInputStep) ++
        omitEmptyPtr "parallel_input" (p.ParallelInput.map marshalOutputReference) ++
        omitEmptyMap "non_parallel_inputs" (marshalOutputReferenceMap p.NonParallelInputs) ++
        omitEmptyString "format" p.Format ++
        omitEmptyString "serialized_fn" p.SerializedFn ++
        omitEmptySlice "output_info" oi))

/-- The argument of `newMsg`: a wire record (or a non-nil pointer to one, which
encodes as the record it points to). -/
inductive Msg where
  | pipelineOptions (p : pipelineOptions)
  | userAgent (u : userAgent)
  | version (v : version)
  | properties (p : properties)
  | output (o : output)
  | integer (i : integer)
  | customSourceInputStep (c : customSourceInputStep)
  | customSourceInputStepSpec (s : customSourceInputStepSpec)
  | customSourceInputStepMetadata (m : customSourceInputStepMetadata)
  | outputReference (r : outputReference)
  | displayData (d : displayData)

/-- The call `json.Marshal(msg)`. -/
def jsonMarshal : Msg → Except MarshalError Json
  | .pipelineOptions p => marshalPipelineOptions p
  | .userAgent u => .ok (marshalUserAgent u)
  | .version v => .ok (marshalVersion v)
  | .properties p => marshalProperties p
  | .output o => marshalOutput o
  | .integer i => .ok (marshalInteger i)
  | .customSourceInputStep c => .ok (marshalCustomSourceInputStep c)
  | .customSourceInputStepSpec s => .ok (marshalCustomSourceInputStepSpec s)
  | .customSourceInputStepMetadata m => .ok (marshalCustomSourceInputStepMetadata m)
  | .outputReference r => .ok (marshalOutputReference r)
  | .displayData d => marshalDisplayData d

/-- The encoder `newMsg`: the document `json.Marshal` gives; `Except.error` is
the panic raised when encoding fails. -/
def newMsg (msg : Msg) : Except MarshalError Json :=
  match jsonMarshal msg with
  | .error err => .error err
  | .ok data => .ok data

/-- The invariant of a `displayData` record: the type tag is one of the three
categories and the value has the shape the tag names. -/
def displayData.Invariant (d : displayData) : Prop :=
  (d.Type_ = goString "INTEGER" ∨ d.Type_ = goString "BOOLEAN" ∨
    d.Type_ = goString "STRING") ∧
  (d.Type_ = goString "INTEGER" → d.Value.isInteger = true) ∧
  (d.Type_ = goString "BOOLEAN" → d.Value.isBoolean = true) ∧
  (d.Type_ = goString "STRING" → d.Value.isString = true)

/-! ## Auxiliary facts: UTF-8 -/

/-- Decoding the encoding of a character gives the character back, with the
number of bytes of the encoding. -/
theorem decodeRune_utf8EncodeChar (c : Char) (rest : GoString) :
    decodeRune (utf8EncodeChar c ++ rest) = (c, (utf8EncodeChar c).length) := by
  have hv : c.toNat < 0xD800 ∨ (0xDFFF < c.toNat ∧ c.toNat < 0x110000) := c.valid
  have hc : Char.ofNat c.toNat = c := Char.ofNat_toNat c
  simp only [utf8EncodeChar]
  generalize c.toNat = n at hv hc
  split_ifs with h1 h2 h3
  · have e : n % 256 = n := by omega
    simp [decodeRune, byte, e, h1, hc]
  · have e0 : (0xC0 + n / 64) % 256 = 0xC0 + n / 64 := by omega
    have e1 : (0x80 + n % 64) % 256 = 0x80 + n % 64 := by omega
    have a1 : ¬ (0xC0 + n / 64 < 0x80) := by omega
    have a2 : 0xC2 ≤ 0xC0 + n / 64 ∧ 0xC0 + n / 64 ≤ 0xDF := by omega
    have a3 : 0x80 ≤ 0x80 + n % 64 ∧ 0x80 + n % 64 ≤ 0xBF := by omega
    simp only [decodeRune, byte, isCont, e0, e1, a1, a2, a3, List.cons_append,
      List.nil_append, if_true, if_false, and_self, decide_True, Bool.and_self,
      List.length_cons, List.length_nil]
    have a7 : (192 + n / 64) % 32 * 64 + (128 + n % 64) % 64 = n := by omega
    rw [a7, hc]
  · have e0 : (0xE0 + n / 4096) % 256 = 0xE0 + n / 4096 := by omega
    have e1 : (0x80 + n / 64 % 64) % 256 = 0x80 + n / 64 % 64 := by omega
    have e2 : (0x80 + n % 64) % 256 = 0x80 + n % 64 := by omega
    have a1 : ¬ (0xE0 + n / 4096 < 0x80) := by omega
    have a2 : ¬ (0xC2 ≤ 0xE0 + n / 4096 ∧ 0xE0 + n / 4096 ≤ 0xDF) := by omega
    have a3 : 0xE0 ≤ 0xE0 + n / 4096 ∧ 0xE0 + n / 4096 ≤ 0xEF := by omega
    have a4 : (if 0xE0 + n / 4096 = 0xE0 then 0xA0 else 0x80) ≤ 0x80 + n / 64 % 64 := by
      split <;> omega
    have a5 : 0x80 + n / 64 % 64 ≤ (if 0xE0 + n / 4096 = 0xED then 0x9F else 0xBF) := by
      split <;> omega
    have a6 : 0x80 ≤ 0x80 + n % 64 ∧ 0x80 + n % 64 ≤ 0xBF := by omega
    simp only [decodeRune, byte, isCont, e0, e1, e2, a1, a2, a3, a4, a5, a6, List.cons_append,
      List.nil_append, if_true, if_false, and_self, and_true, true_and, decide_True,
      Bool.and_self, List.length_cons, List.length_nil]
    have a7 : (224 + n / 4096) % 16 * 4096 + (128 + n / 64 % 64) % 64 * 64 + (128 + n % 64) % 64
        = n := by omega
    rw [a7, hc]
  · have h4 : n < 0x110000 := by omega
    have e0 : (0xF0 + n / 262144) % 256 = 0xF0 + n / 262144 := by omega
    have e1 : (0x80 + n / 4096 % 64) % 256 = 0x80 + n / 4096 % 64 := by omega
    have e2 : (0x80 + n / 64 % 64) % 256 = 0x80 + n / 64 % 64 := by omega
    have e3 : (0x80 + n % 64) % 256 = 0x80 + n % 64 := by omega
    have a1 : ¬ (0xF0 + n / 262144 < 0x80) := by omega
    have a2 : ¬ (0xC2 ≤ 0xF0 + n / 262144 ∧ 0xF0 + n / 262144 ≤ 0xDF) := by omega
    have a3 : ¬ (0xE0 ≤ 0xF0 + n / 262144 ∧ 0xF0 + n / 262144 ≤ 0xEF) := by omega
    have a3b : 0xF0 ≤ 0xF0 + n / 262144 ∧ 0xF0 + n / 262144 ≤ 0xF4 := by omega
    have a4 : (if 0xF0 + n / 262144 = 0xF0 then 0x90 else 0x80) ≤ 0x80 + n / 4096 % 64 := by
      split <;> omega
    have a5 : 0x80 + n / 4096 % 64 ≤ (if 0xF0 + n / 262144 = 0xF4 then 0x8F else 0xBF) := by
      split <;> omega
    have a6 : 0x80 ≤ 0x80 + n / 64 % 64 ∧ 0x80 + n / 64 % 64 ≤ 0xBF := by omega
    have a6b : 0x80 ≤ 0x80 + n % 64 ∧ 0x80 + n % 64 ≤ 0xBF := by omega
    simp only [decodeRune, byte, isCont, e0, e1, e2, e3, a1, a2, a3, a3b, a4, a5, a6, a6b,
      List.cons_append, List.nil_append, if_true, if_false, and_self, and_true, true_and,
      decide_True, Bool.and_self, List.length_cons, List.length_nil]
    have a7 : (240 + n / 262144) % 8 * 262144 + (128 + n / 4096 % 64) % 64 * 4096 +
        (128 + n / 64 % 64) % 64 * 64 + (128 + n % 64) % 64 = n := by omega
    rw [a7, hc]

/-- The encoding of a character has at least one byte. -/
theorem utf8EncodeChar_length_pos (c : Char) : 0 < (utf8EncodeChar c).length := by
  unfold utf8EncodeChar
  simp only
  split_ifs <;> simp

/-- Decoding the encoding of a text gives the text back. -/
theorem decodeLoop_encodeChars (cs : List Char) :
    ∀ fuel : Nat, (encodeChars cs).length ≤ fuel → decodeLoop fuel (encodeChars cs) = cs := by
  induction cs with
  | nil => intro fuel _; cases fuel <;> rfl
  | cons c cs ih =>
    intro fuel hf
    have hpos := utf8EncodeChar_length_pos c
    have hdec := decodeRune_utf8EncodeChar c (encodeChars cs)
    simp only [encodeChars, List.length_append] at hf
    cases fuel with
    | zero => omega
    | succ fuel =>
      cases hb : utf8EncodeChar c ++ encodeChars cs with
      | nil =>
        have hl := congrArg List.length hb
        rw [List.length_append, List.length_nil] at hl
        omega
      | cons b bs =>
        rw [hb] at hdec
        simp only [encodeChars, hb, decodeLoop, hdec]
        rw [← hb, List.drop_left]
        rw [ih fuel (by omega)]

/-- A Go string that holds valid UTF-8, the bytes of a text, is written by
`json.Marshal` as that text. -/
theorem jsonText_goString (t : String) : jsonText (goString t) = t := by
  unfold jsonText goString
  rw [decodeLoop_encodeChars t.data _ (Nat.le_refl _)]

/-- Two texts with the same bytes are the same text. -/
theorem goString_injective {a b : String} (h : goString a = goString b) : a = b := by
  have h2 := congrArg jsonText h
  rwa [jsonText_goString, jsonText_goString] at h2

/-- Only the empty text has no bytes. -/
theorem goString_eq_nil_iff (t : String) : goString t = [] ↔ t = "" := by
  constructor
  · intro h
    exact goString_injective (h.trans rfl)
  · intro h
    subst h
    rfl

/-- A byte that starts no valid encoding is written as U+FFFD. -/
theorem jsonText_invalid_byte : jsonText [0xff] = "\uFFFD" ∧ goString "\uFFFD" ≠ [0xff] := by
  constructor
  · rfl
  · decide

/-! ## Auxiliary facts: text rendering -/

/-- C1: for a value of any of the ten predeclared integer types,
`findDisplayDataType` returns the category `INTEGER` together with the value
itself, unchanged. -/
theorem findDisplayDataType_integer (k : IntKind) (n : Int) :
    findDisplayDataType (.int k n) = (goString "INTEGER", .int k n) := rfl

/-- C2: a boolean is classified `BOOLEAN` and a string (the empty one
included) `STRING`, the value being returned unchanged in both cases. -/
theorem findDisplayDataType_bool_string :
    (∀ b : Bool, findDisplayDataType (.bool b) = (goString "BOOLEAN", .bool b)) ∧
    (∀ s : GoString, findDisplayDataType (.string s) = (goString "STRING", .string s)) ∧
    findDisplayDataType (.string (goString "")) = (goString "STRING", .string (goString "")) :=
  ⟨fun _ => rfl, fun _ => rfl, rfl⟩

/-- C4: whatever the key, label, namespace and runtime value, the record
`newDisplayData` returns satisfies the `displayData` invariant: its type tag is
`INTEGER`, `BOOLEAN` or `STRING`, and the value is an integer under `INTEGER`,
a boolean under `BOOLEAN`, a string under `STRING`. -/
theorem newDisplayData_invariant (key label namespace_ : GoString) (v : GoValue) :
    (newDisplayData key label namespace_ v).Invariant := by
  cases v <;>
    simp [newDisplayData, findDisplayDataType, displayData.Invariant, GoValue.isInteger,
      GoValue.isBoolean, GoValue.isString] <;>
    decide

/-- C5: `newDisplayData` copies key, label and namespace verbatim, leaves
`ShortValue` unset (the empty string), and fills `Type` and `Value` with the
pair `findDisplayDataType` returns; the value 42 gives `INTEGER` and 42, the
value true gives `BOOLEAN` and true. -/
theorem newDisplayData_fields :
    (∀ (key label namespace_ : GoString) (v : GoValue),
      (newDisplayData key label namespace_ v).Key = key ∧
      (newDisplayData key label namespace_ v).Label = label ∧
      (newDisplayData key label namespace_ v).Namespace = namespace_ ∧
      (newDisplayData key label namespace_ v).ShortValue = [] ∧
      ((newDisplayData key label namespace_ v).Type_,
        (newDisplayData key label namespace_ v).Value) = findDisplayDataType v) ∧
    ((newDisplayData (goString "k") (goString "l") (goString "ns") (.int .int 42)).Type_ =
        goString "INTEGER" ∧
      (newDisplayData (goString "k") (goString "l") (goString "ns") (.int .int 42)).Value =
        .int .int 42) ∧
    ((newDisplayData (goString "k") (goString "l") (goString "ns") (.bool true)).Type_ =
        goString "BOOLEAN" ∧
      (newDisplayData (goString "k") (goString "l") (goString "ns") (.bool true)).Value =
        .bool true) :=
  ⟨fun _ _ _ _ => ⟨rfl, rfl, rfl, rfl, rfl⟩, ⟨rfl, rfl⟩, ⟨rfl, rfl⟩⟩

/-! ## The custom-source and reference builders -/

/-- C6: for every serialized-source string, the empty one included,
`newCustomSourceInputStep` returns a record whose `Spec.Type` is
`CustomSourcesType`, whose `Spec.SerializedSource` is the argument, and whose
`Metadata` is present with a present `EstimatedSizeBytes` of value
5242880 = 5 * 2^20 and type `http://schema.org/Integer`. -/
theorem newCustomSourceInputStep_fields (s : GoString) :
    (newCustomSourceInputStep s).Spec.Type_ = goString "CustomSourcesType" ∧
    (newCustomSourceInputStep s).Spec.SerializedSource = s ∧
    ∃ m : customSourceInputStepMetadata, (newCustomSourceInputStep s).Metadata = some m ∧
      ∃ i : integer, m.EstimatedSizeBytes = some i ∧
        i.Value = 5242880 ∧ i.Value = 5 * 2 ^ 20 ∧
        i.Type_ = goString "http://schema.org/Integer" :=
  ⟨rfl, rfl, _, rfl, _, rfl, by decide, by decide, rfl⟩

/-- C7: for every pair of strings, `newOutputReference` returns (without any
check on them) the record with `Type` equal to `OutputReference`, `StepName`
equal to the first and `OutputName` equal to the second. -/
theorem newOutputReference_fields (step output : GoString) :
    (newOutputReference step output).Type_ = goString "OutputReference" ∧
    (newOutputReference step output).StepName = step ∧
    (newOutputReference step output).OutputName = output :=
  ⟨rfl, rfl, rfl⟩

/-! ## The encoder -/

/-- Member of a `string` field: present exactly when the string is not empty. -/
theorem mem_omitEmptyString (x key : String) (s : GoString) (j : Json) :
    (x, j) ∈ omitEmptyString key s ↔ x = key ∧ s ≠ [] ∧ j = .str (jsonText s) := by
  unfold omitEmptyString
  split <;> simp_all

/-- Member of an `int` field: present exactly when the integer is not 0. -/
theorem mem_omitEmptyInt (x key : String) (n : Int) (j : Json) :
    (x, j) ∈ omitEmptyInt key n ↔ x = key ∧ n ≠ 0 ∧ j = .num n := by
  unfold omitEmptyInt
  split <;> simp_all

/-- Member of a slice field: present exactly when the slice has an element. -/
theorem mem_omitEmptySlice (x key : String) (elems : List Json) (j : Json) :
    (x, j) ∈ omitEmptySlice key elems ↔ x = key ∧ elems.length ≠ 0 ∧ j = .arr elems := by
  unfold omitEmptySlice
  split <;> simp_all

/-- Member of a map field: present exactly when the map has an entry. -/
theorem mem_omitEmptyMap (x key : String) (entries : List (String × Json)) (j : Json) :
    (x, j) ∈ omitEmptyMap key entries ↔
      x = key ∧ entries.length ≠ 0 ∧ j = .obj entries := by
  unfold omitEmptyMap
  split <;> simp_all

/-- Member of a pointer field: present exactly when the pointer is not nil. -/
theorem mem_omitEmptyPtr (x key : String) (target : Option Json) (j : Json) :
    (x, j) ∈ omitEmptyPtr key target ↔ x = key ∧ target = some j := by
  cases target <;> simp [omitEmptyPtr, eq_comm]

/-- Member of an `interface{}` field: under the key of the field, and only for
a value that is not the nil interface. -/
theorem mem_omitEmptyInterface (x key : String) (v : GoValue) (j : Json)
    (members : List (String × Json)) (h : omitEmptyInterface key v = .ok members) :
    (x, j) ∈ members ↔ x = key ∧ v ≠ .nil ∧ marshalValue v = .ok j := by
  unfold omitEmptyInterface at h
  split at h
  · cases h; simp
  · rename_i hv
    split at h
    · cases h
    · rename_i j0 hj0
      cases h
      have hne : v ≠ .nil := fun h0 => hv h0
      simp [hj0, hne, eq_comm]

/-- Key of an `interface{}` field: never present for the nil interface. -/
theorem omitEmptyInterface_nil (key : String) : omitEmptyInterface key .nil = .ok [] := rfl

/-- Insertion into the sorted entries adds one entry. -/
theorem insertEntry_length (e : GoString × Json) (l : List (GoString × Json)) :
    (insertEntry e l).length = l.length + 1 := by
  induction l with
  | nil => rfl
  | cons x xs ih =>
    simp only [insertEntry]
    split <;> simp [ih]

/-- Sorting the entries of a map keeps their number. -/
theorem sortEntries_length (l : List (GoString × Json)) : (sortEntries l).length = l.length := by
  induction l with
  | nil => rfl
  | cons x xs ih => simp [sortEntries, insertEntry_length, ih]

/-- The encoded map has as many entries as the map. -/
theorem marshalOutputReferenceMap_length (m : List (GoString × Option outputReference)) :
    (marshalOutputReferenceMap m).length = m.length := by
  simp [marshalOutputReferenceMap, sortEntries_length]

/-- The encoded slice `[]displayData` has as many elements as the slice. -/
theorem marshalDisplayDataSlice_length :
    ∀ (ds : List displayData) (js : List Json),
      marshalDisplayDataSlice ds = .ok js → js.length = ds.length := by
  intro ds
  induction ds with
  | nil => intro js h; simp only [marshalDisplayDataSlice, Except.ok.injEq] at h; simp [← h]
  | cons d ds ih =>
    intro js h
    simp only [marshalDisplayDataSlice] at h
    split at h
    · cases h
    · split at h
      · cases h
      · rename_i j _ js0 hjs
        simp only [Except.ok.injEq] at h
        simp [← h, ih js0 hjs]

/-- The encoded slice `[]*displayData` has as many elements as the slice. -/
theorem marshalDisplayDataPtrSlice_length :
    ∀ (ds : List (Option displayData)) (js : List Json),
      marshalDisplayDataPtrSlice ds = .ok js → js.length = ds.length := by
  intro ds
  induction ds with
  | nil => intro js h; simp only [marshalDisplayDataPtrSlice, Except.ok.injEq] at h; simp [← h]
  | cons d ds ih =>
    intro js h
    cases d with
    | none =>
      simp only [marshalDisplayDataPtrSlice] at h
      split at h
      · cases h
      · rename_i js0 hjs
        simp only [Except.ok.injEq] at h
        simp [← h, ih js0 hjs]
    | some d =>
      simp only [marshalDisplayDataPtrSlice] at h
      split at h
      · cases h
      · split at h
        · cases h
        · rename_i j _ js0 hjs
          simp only [Except.ok.injEq] at h
          simp [← h, ih js0 hjs]

/-- The encoded slice `[]output` has as many elements as the slice. -/
theorem marshalOutputSlice_length :
    ∀ (os : List output) (js : List Json),
      marshalOutputSlice os = .ok js → js.length = os.length := by
  intro os
  induction os with
  | nil => intro js h; simp only [marshalOutputSlice, Except.ok.injEq] at h; simp [← h]
  | cons o os ih =>
    intro js h
    simp only [marshalOutputSlice] at h
    split at h
    · cases h
    · split at h
      · cases h
      · rename_i j _ js0 hjs
        simp only [Except.ok.injEq] at h
        simp [← h, ih js0 hjs]

/-- The field `Spec` of `customSourceInputStep` is a struct tagged `spec` without
`omitempty`: it is emitted even when both of its strings are empty. -/
theorem newMsg_customSourceInputStep_zero :
    newMsg (.customSourceInputStep { Spec := { Type_ := [], SerializedSource := [] },
                                     Metadata := none }) =
      .ok (.obj [("spec", .obj [])]) := rfl

/-- C8, as stated, fails: the document `newMsg` gives for
`newOutputReference("s1","out1")` does not have four keys. -/
theorem newMsg_outputReference_not_four_fields :
    ¬ ∃ doc : Json,
        newMsg (.outputReference (newOutputReference (goString "s1") (goString "out1"))) =
          .ok doc ∧
        doc.keys.length = 4 := by
  rintro ⟨doc, h, hk⟩
  have h3 : newMsg (.outputReference (newOutputReference (goString "s1") (goString "out1"))) =
      .ok (.obj [("@type", .str "OutputReference"), ("step_name", .str "s1"),
        ("output_name", .str "out1")]) := rfl
  rw [h3] at h
  cases h
  simp [Json.keys] at hk

/-- C8, amended: encoding `newOutputReference("s1","out1")` with `newMsg` yields
a document with exactly the three wire fields `@type`, `step_name` and
`output_name` (holding `OutputReference`, `s1`, `out1`), no key more and no key
less. -/
theorem newMsg_outputReference_three_fields :
    ∃ doc : Json,
      newMsg (.outputReference (newOutputReference (goString "s1") (goString "out1"))) = .ok doc ∧
      doc = .obj [("@type", .str "OutputReference"), ("step_name", .str "s1"),
        ("output_name", .str "out1")] ∧
      doc.keys = ["@type", "step_name", "output_name"] ∧
      doc.keys.length = 3 :=
  ⟨_, rfl, rfl, rfl, rfl⟩

/-- C9, as stated, fails: for the user name that is the single byte `0xff`,
which is not valid UTF-8, the value under `user_name` is the text U+FFFD and
not the user name. -/
theorem newMsg_properties_user_name_value_fails :
    ¬ (∀ u : GoString, u ≠ [] →
        ∃ t : String, goString t = u ∧
          newMsg (.properties
            { UserName := u, DisplayData := [], CustomSourceInputStep := none,
              ParallelInput := none, NonParallelInputs := [], Format := [],
              SerializedFn := [], OutputInfo := [] }) =
            .ok (.obj [("user_name", .str t)])) := by
  intro h
  obtain ⟨t, ht, hdoc⟩ := h [0xff] (by decide)
  have h2 : newMsg (.properties
      { UserName := [0xff], DisplayData := [], CustomSourceInputStep := none,
        ParallelInput := none, NonParallelInputs := [], Format := [],
        SerializedFn := [], OutputInfo := [] }) =
      .ok (.obj [("user_name", .str "\uFFFD")]) := rfl
  rw [h2] at hdoc
  simp only [Except.ok.injEq, Json.obj.injEq, List.cons.injEq, Prod.mk.injEq, Json.str.injEq,
    true_and, and_true] at hdoc
  subst hdoc
  revert ht
  decide

/-- C9, amended: for a non-empty user name `u`, the `properties` record in
which only `UserName = u` is set and every other field holds its empty value
encodes to the document whose only key is `user_name`; none of the keys
`display_data`, `custom_source_step_input`, `parallel_input`,
`non_parallel_inputs`, `format`, `serialized_fn`, `output_info` is in it.  The
value under `user_name` is the JSON string `json.Marshal` writes for `u`: `u`
itself when `u` is valid UTF-8 (the bytes of a text), and in general `u` with
every invalid byte replaced by U+FFFD. -/
theorem newMsg_properties_only_user_name (u : GoString) (hu : u ≠ []) :
    ∃ doc : Json,
      newMsg (.properties
        { UserName := u, DisplayData := [], CustomSourceInputStep := none,
          ParallelInput := none, NonParallelInputs := [], Format := [],
          SerializedFn := [], OutputInfo := [] }) = .ok doc ∧
      doc = .obj [("user_name", .str (jsonText u))] ∧
      (∀ t : String, goString t = u → doc = .obj [("user_name", .str t)]) ∧
      doc.keys = ["user_name"] ∧
      doc.lookup "user_name" = some (.str (jsonText u)) ∧
      "display_data" ∉ doc.keys ∧
      "custom_source_step_input" ∉ doc.keys ∧
      "parallel_input" ∉ doc.keys ∧
      "non_parallel_inputs" ∉ doc.keys ∧
      "format" ∉ doc.keys ∧
      "serialized_fn" ∉ doc.keys ∧
      "output_info" ∉ doc.keys := by
  refine ⟨.obj [("user_name", .str (jsonText u))], ?_, rfl, ?_, rfl, ?_, ?_, ?_, ?_, ?_, ?_,
    ?_, ?_⟩
  · simp [newMsg, jsonMarshal, marshalProperties, marshalDisplayDataSlice, marshalOutputSlice,
      omitEmptyString, omitEmptySlice, omitEmptyPtr, omitEmptyMap, marshalOutputReferenceMap,
      sortEntries, hu]
  · intro t ht
    rw [← ht, jsonText_goString]
  · simp [Json.lookup]
  all_goals simp [Json.keys]

/-- Witness of C9 amended, at the user name `alice`. -/
theorem newMsg_properties_only_user_name_witness :
    ∃ doc : Json,
      newMsg (.properties
        { UserName := goString "alice", DisplayData := [], CustomSourceInputStep := none,
          ParallelInput := none, NonParallelInputs := [], Format := [],
          SerializedFn := [], OutputInfo := [] }) = .ok doc ∧
      doc = .obj [("user_name", .str (jsonText (goString "alice")))] ∧
      (∀ t : String, goString t = goString "alice" → doc = .obj [("user_name", .str t)]) ∧
      doc.keys = ["user_name"] ∧
      doc.lookup "user_name" = some (.str (jsonText (goString "alice"))) ∧
      "display_data" ∉ doc.keys ∧
      "custom_source_step_input" ∉ doc.keys ∧
      "parallel_input" ∉ doc.keys ∧
      "non_parallel_inputs" ∉ doc.keys ∧
      "format" ∉ doc.keys ∧
      "serialized_fn" ∉ doc.keys ∧
      "output_info" ∉ doc.keys :=
  newMsg_properties_only_user_name (goString "alice") (by decide)

/-- C10: in every wire record, a field that holds the empty value of its type
(the empty string, a slice or map of length 0, a nil pointer, the nil
interface) has no key in the document `newMsg` produces, hence neither a null
nor an empty value in its place.  The records are taken one by one, each with
all its fields of such a type; `userAgent`, `version`, `integer`,
`customSourceInputStep` and its two sub-records, and `outputReference` always
encode.  Last, a `userAgent` with empty `Name` and non-empty `Version` encodes
with `version` only. -/
theorem newMsg_omits_empty_fields :
    (∀ (p : pipelineOptions) (doc : Json), newMsg (.pipelineOptions p) = .ok doc →
      (p.DisplayData.length = 0 → "display_data" ∉ doc.keys)) ∧
    (∀ u : userAgent, ∃ doc : Json, newMsg (.userAgent u) = .ok doc ∧
      (u.Name = [] → "name" ∉ doc.keys) ∧
      (u.Version = [] → "version" ∉ doc.keys)) ∧
    (∀ v : version, ∃ doc : Json, newMsg (.version v) = .ok doc ∧
      (v.JobType = [] → "job_type" ∉ doc.keys) ∧
      (v.Major = [] → "major" ∉ doc.keys)) ∧
    (∀ (p : properties) (doc : Json), newMsg (.properties p) = .ok doc →
      (p.UserName = [] → "user_name" ∉ doc.keys) ∧
      (p.DisplayData.length = 0 → "display_data" ∉ doc.keys) ∧
      (p.CustomSourceInputStep = none → "custom_source_step_input" ∉ doc.keys) ∧
      (p.ParallelInput = none → "parallel_input" ∉ doc.keys) ∧
      (p.NonParallelInputs.length = 0 → "non_parallel_inputs" ∉ doc.keys) ∧
      (p.Format = [] → "format" ∉ doc.keys) ∧
      (p.SerializedFn = [] → "serialized_fn" ∉ doc.keys) ∧
      (p.OutputInfo.length = 0 → "output_info" ∉ doc.keys)) ∧
    (∀ (o : output) (doc : Json), newMsg (.output o) = .ok doc →
      (o.UserName = [] → "user_name" ∉ doc.keys) ∧
      (o.OutputName = [] → "output_name" ∉ doc.keys) ∧
      (o.Encoding = none → "encoding" ∉ doc.keys)) ∧
    (∀ i : integer, ∃ doc : Json, newMsg (.integer i) = .ok doc ∧
      (i.Type_ = [] → "@type" ∉ doc.keys)) ∧
    (∀ c : customSourceInputStep, ∃ doc : Json, newMsg (.customSourceInputStep c) = .ok doc ∧
      (c.Metadata = none → "metadata" ∉ doc.keys)) ∧
    (∀ s : customSourceInputStepSpec, ∃ doc : Json,
      newMsg (.customSourceInputStepSpec s) = .ok doc ∧
      (s.Type_ = [] → "@type" ∉ doc.keys) ∧
      (s.SerializedSource = [] → "serialized_source" ∉ doc.keys)) ∧
    (∀ m : customSourceInputStepMetadata, ∃ doc : Json,
      newMsg (.customSourceInputStepMetadata m) = .ok doc ∧
      (m.EstimatedSizeBytes = none → "estimated_size_bytes" ∉ doc.keys)) ∧
    (∀ r : outputReference, ∃ doc : Json, newMsg (.outputReference r) = .ok doc ∧
      (r.Type_ = [] → "@type" ∉ doc.keys) ∧
      (r.StepName = [] → "step_name" ∉ doc.keys) ∧
      (r.OutputName = [] → "output_name" ∉ doc.keys)) ∧
    (∀ (d : displayData) (doc : Json), newMsg (.displayData d) = .ok doc →
      (d.Key = [] → "key" ∉ doc.keys) ∧
      (d.Label = [] → "label" ∉ doc.keys) ∧
      (d.Namespace = [] → "namespace" ∉ doc.keys) ∧
      (d.ShortValue = [] → "shortValue" ∉ doc.keys) ∧
      (d.Type_ = [] → "type" ∉ doc.keys) ∧
      (d.Value = .nil → "value" ∉ doc.keys)) ∧
    (∀ v : GoString, v ≠ [] →
      newMsg (.userAgent { Name := [], Version := v }) =
        .ok (.obj [("version", .str (jsonText v))])) := by
  refine ⟨?_, ?_, ?_, ?_, ?_, ?_, ?_, ?_, ?_, ?_, ?_, ?_⟩
  · intro p doc h hlen
    simp only [newMsg, jsonMarshal, marshalPipelineOptions] at h
    split at h
    · cases h
    · rename_i data hdata
      split at hdata
      · cases hdata
      · rename_i dd hdd
        cases hdata
        cases h
        have hl := marshalDisplayDataPtrSlice_length _ _ hdd
        simp [Json.keys, mem_omitEmptySlice, hl, hlen]
  · intro u
    refine ⟨marshalUserAgent u, rfl, ?_, ?_⟩ <;> intro h <;>
      simp [marshalUserAgent, Json.keys, mem_omitEmptyString, h]
  · intro v
    refine ⟨marshalVersion v, rfl, ?_, ?_⟩ <;> intro h <;>
      simp [marshalVersion, Json.keys, mem_omitEmptyString, h]
  · intro p doc h
    simp only [newMsg, jsonMarshal, marshalProperties] at h
    split at h
    · cases h
    · rename_i data hdata
      split at hdata
      · cases hdata
      · rename_i dd hdd
        split at hdata
        · cases hdata
        · rename_i oi hoi
          cases hdata
          cases h
          have hl := marshalDisplayDataSlice_length _ _ hdd
          have ho := marshalOutputSlice_length _ _ hoi
          have hm := marshalOutputReferenceMap_length p.NonParallelInputs
          refine ⟨?_, ?_, ?_, ?_, ?_, ?_, ?_, ?_⟩ <;> intro he <;>
            simp [Json.keys, mem_omitEmptyString, mem_omitEmptySlice,
              mem_omitEmptyPtr, mem_omitEmptyMap, hl, ho, hm, he]
  · intro o doc h
    simp only [newMsg, jsonMarshal, marshalOutput] at h
    split at h
    · cases h
    · rename_i data hdata
      split at hdata
      · cases hdata
        cases h
        rename_i henc
        refine ⟨?_, ?_, ?_⟩ <;> intro he <;>
          simp [Json.keys, mem_omitEmptyString, he]
      · rename_i c henc
        split at hdata
        · cases hdata
        · cases hdata
          cases h
          refine ⟨?_, ?_, ?_⟩ <;> intro he <;>
            simp_all [Json.keys, mem_omitEmptyString]
  · intro i
    refine ⟨marshalInteger i, rfl, ?_⟩
    intro h
    simp [marshalInteger, Json.keys, mem_omitEmptyString, mem_omitEmptyInt, h]
  · intro c
    refine ⟨marshalCustomSourceInputStep c, rfl, ?_⟩
    intro h
    simp [marshalCustomSourceInputStep, Json.keys, mem_omitEmptyPtr, h]
  · intro s
    refine ⟨marshalCustomSourceInputStepSpec s, rfl, ?_, ?_⟩ <;> intro h <;>
      simp [marshalCustomSourceInputStepSpec, Json.keys, mem_omitEmptyString, h]
  · intro m
    refine ⟨marshalCustomSourceInputStepMetadata m, rfl, ?_⟩
    intro h
    simp [marshalCustomSourceInputStepMetadata, Json.keys, mem_omitEmptyPtr, h]
  · intro r
    refine ⟨marshalOutputReference r, rfl, ?_, ?_, ?_⟩ <;> intro h <;>
      simp [marshalOutputReference, Json.keys, mem_omitEmptyString, h]
  · intro d doc h
    simp only [newMsg, jsonMarshal, marshalDisplayData] at h
    split at h
    · cases h
    · rename_i data hdata
      split at hdata
      · cases hdata
      · rename_i value hvalue
        cases hdata
        cases h
        refine ⟨?_, ?_, ?_, ?_, ?_, ?_⟩ <;> intro he <;>
          simp [Json.keys, mem_omitEmptyString, mem_omitEmptyInterface _ _ _ _ _ hvalue, he]
  · intro v hv
    simp [newMsg, jsonMarshal, marshalUserAgent, omitEmptyString, hv]

/-- Witness of C10: a `userAgent` with only `Version` set, and a `displayData`
record whose `Label`, `Namespace`, `ShortValue` and `Value` are empty. -/
theorem newMsg_omits_empty_fields_witness :
    newMsg (.userAgent { Name := [], Version := goString "0.6.0.dev" }) =
      .ok (.obj [("version", .str "0.6.0.dev")]) ∧
    newMsg (.displayData
        { Key := goString "k", Label := [], Namespace := [], ShortValue := [],
          Type_ := goString "STRING", Value := .nil }) =
      .ok (.obj [("key", .str "k"), ("type", .str "STRING")]) ∧
    "label" ∉ (Json.obj [("key", .str "k"), ("type", .str "STRING")]).keys ∧
    "value" ∉ (Json.obj [("key", .str "k"), ("type", .str "STRING")]).keys :=
  ⟨newMsg_omits_empty_fields.2.2.2.2.2.2.2.2.2.2.2 (goString "0.6.0.dev") (by decide),
   rfl,
   (newMsg_omits_empty_fields.2.2.2.2.2.2.2.2.2.2.1
      { Key := goString "k", Label := [], Namespace := [], ShortValue := [],
        Type_ := goString "STRING", Value := GoValue.nil }
      (.obj [("key", .str "k"), ("type", .str "STRING")]) rfl).2.1 rfl,
   (newMsg_omits_empty_fields.2.2.2.2.2.2.2.2.2.2.1
      { Key := goString "k", Label := [], Namespace := [], ShortValue := [],
        Type_ := goString "STRING", Value := GoValue.nil }
      (.obj [("key", .str "k"), ("type", .str "STRING")]) rfl).2.2.2.2.2 rfl⟩

/-! ## Sequences, builder-assembled records, and numeric leaves -/

/-- The encoder `newMsg` returns what `json.Marshal` returns, the error being
the panic. -/
theorem newMsg_eq_jsonMarshal (msg : Msg) : newMsg msg = jsonMarshal msg := by
  unfold newMsg
  cases jsonMarshal msg <;> rfl

/-- The encoded slice `[]*displayData`, position by position: a nil element
gives `null`, any other element its own encoding. -/
theorem marshalDisplayDataPtrSlice_getElem :
    ∀ (ds : List (Option displayData)) (js : List Json),
      marshalDisplayDataPtrSlice ds = .ok js →
      ∀ i : Nat,
        (ds[i]? = some none → js[i]? = some .null) ∧
        (∀ d : displayData, ds[i]? = some (some d) →
          ∃ j : Json, js[i]? = some j ∧ marshalDisplayData d = .ok j) := by
  intro ds
  induction ds with
  | nil => intro js _ i; simp
  | cons x xs ih =>
    intro js h i
    cases x with
    | none =>
      simp only [marshalDisplayDataPtrSlice] at h
      split at h
      · cases h
      · rename_i js0 hjs
        cases h
        cases i with
        | zero => simp
        | succ i => simpa using ih js0 hjs i
    | some d0 =>
      simp only [marshalDisplayDataPtrSlice] at h
      split at h
      · cases h
      · split at h
        · cases h
        · rename_i j0 hj0 _ js0 hjs
          cases h
          cases i with
          | zero =>
            refine ⟨by simp, ?_⟩
            intro d hd
            simp only [List.getElem?_cons_zero, Option.some.injEq] at hd
            subst hd
            exact ⟨j0, by simp, hj0⟩
          | succ i => simpa using ih js0 hjs i

/-- The slice `[]*displayData` encodes as soon as each of its records does. -/
theorem marshalDisplayDataPtrSlice_ok :
    ∀ ds : List (Option displayData),
      (∀ d : displayData, some d ∈ ds → ∃ j : Json, marshalDisplayData d = .ok j) →
      ∃ js : List Json, marshalDisplayDataPtrSlice ds = .ok js := by
  intro ds
  induction ds with
  | nil => intro _; exact ⟨[], rfl⟩
  | cons x xs ih =>
    intro h
    obtain ⟨js, hjs⟩ := ih (fun d hd => h d (List.mem_cons_of_mem _ hd))
    cases x with
    | none => exact ⟨.null :: js, by simp [marshalDisplayDataPtrSlice, hjs]⟩
    | some d =>
      obtain ⟨j, hj⟩ := h d (List.mem_cons_self _ _)
      exact ⟨j :: js, by simp [marshalDisplayDataPtrSlice, hjs, hj]⟩

/-- C11: for a `pipelineOptions` record with a non-empty `DisplayData`
sequence, the document `newMsg` produces has the one key `display_data`, an
array of the same length as the sequence whose element at each position is the
encoding of the record at that position (`null` for a nil pointer): nothing is
dropped, merged or reordered.  The document is produced as soon as every record
of the sequence encodes. -/
theorem newMsg_pipelineOptions_display_data_order (p : pipelineOptions)
    (hne : p.DisplayData ≠ []) :
    (∀ doc : Json, newMsg (.pipelineOptions p) = .ok doc →
      ∃ elems : List Json,
        doc = .obj [("display_data", .arr elems)] ∧
        elems.length = p.DisplayData.length ∧
        ∀ i : Nat,
          (∀ d : displayData, p.DisplayData[i]? = some (some d) →
            ∃ j : Json, elems[i]? = some j ∧ newMsg (.displayData d) = .ok j) ∧
          (p.DisplayData[i]? = some none → elems[i]? = some .null)) ∧
    ((∀ d : displayData, some d ∈ p.DisplayData →
        ∃ j : Json, newMsg (.displayData d) = .ok j) →
      ∃ doc : Json, newMsg (.pipelineOptions p) = .ok doc) := by
  constructor
  · intro doc h
    rw [newMsg_eq_jsonMarshal] at h
    simp only [jsonMarshal, marshalPipelineOptions] at h
    split at h
    · cases h
    · rename_i dd hdd
      cases h
      have hl := marshalDisplayDataPtrSlice_length _ _ hdd
      have hpos : dd.length ≠ 0 := by
        rw [hl]
        intro h0
        exact hne (List.length_eq_zero.mp h0)
      refine ⟨dd, by simp [omitEmptySlice, hpos], hl, ?_⟩
      intro i
      have hi := marshalDisplayDataPtrSlice_getElem _ _ hdd i
      refine ⟨?_, hi.1⟩
      intro d hd
      obtain ⟨j, hj, hm⟩ := hi.2 d hd
      exact ⟨j, hj, by rw [newMsg_eq_jsonMarshal]; exact hm⟩
  · intro h
    have h2 : ∀ d : displayData, some d ∈ p.DisplayData →
        ∃ j : Json, marshalDisplayData d = .ok j := by
      intro d hd
      obtain ⟨j, hj⟩ := h d hd
      rw [newMsg_eq_jsonMarshal] at hj
      exact ⟨j, hj⟩
    obtain ⟨js, hjs⟩ := marshalDisplayDataPtrSlice_ok _ h2
    refine ⟨.obj (omitEmptySlice "display_data" js), ?_⟩
    rw [newMsg_eq_jsonMarshal]
    simp [jsonMarshal, marshalPipelineOptions, hjs]

/-- Witness of C11: two records in a given order; the array has two elements. -/
theorem newMsg_pipelineOptions_display_data_order_witness :
    ∃ elems : List Json,
      Json.obj [("display_data", .arr
        [.obj [("key", .str "a"), ("type", .str "INTEGER"), ("value", .num 1)],
         .obj [("key", .str "b"), ("type", .str "BOOLEAN"), ("value", .bool true)]])] =
        .obj [("display_data", .arr elems)] ∧
      elems.length = 2 ∧
      ∃ j : Json, elems[1]? = some j ∧
        newMsg (.displayData (newDisplayData (goString "b") [] [] (.bool true))) = .ok j := by
  obtain ⟨elems, h1, h2, h3⟩ :=
    (newMsg_pipelineOptions_display_data_order
      { DisplayData := [some (newDisplayData (goString "a") [] [] (.int .int 1)),
                        some (newDisplayData (goString "b") [] [] (.bool true))] }
      (List.cons_ne_nil _ _)).1
      (.obj [("display_data", .arr
        [.obj [("key", .str "a"), ("type", .str "INTEGER"), ("value", .num 1)],
         .obj [("key", .str "b"), ("type", .str "BOOLEAN"), ("value", .bool true)]])])
      rfl
  exact ⟨elems, h1, h2, (h3 1).1 _ rfl⟩

/-- A record from `newDisplayData` always encodes: its value is an integer, a
boolean or a string. -/
theorem marshalDisplayData_newDisplayData (key label namespace_ : GoString) (v : GoValue) :
    ∃ j : Json, marshalDisplayData (newDisplayData key label namespace_ v) = .ok j := by
  cases v <;> exact ⟨_, rfl⟩

/-- A slice of records from `newDisplayData` always encodes. -/
theorem marshalDisplayDataSlice_built :
    ∀ entries : List (GoString × GoString × GoString × GoValue),
      ∃ js : List Json,
        marshalDisplayDataSlice
          (entries.map (fun e => newDisplayData e.1 e.2.1 e.2.2.1 e.2.2.2)) = .ok js := by
  intro entries
  induction entries with
  | nil => exact ⟨[], rfl⟩
  | cons e es ih =>
    obtain ⟨js, hjs⟩ := ih
    obtain ⟨j, hj⟩ := marshalDisplayData_newDisplayData e.1 e.2.1 e.2.2.1 e.2.2.2
    exact ⟨j :: js, by simp only [List.map_cons, marshalDisplayDataSlice, hj, hjs]⟩

/-- A slice of pointers to records from `newDisplayData` always encodes. -/
theorem marshalDisplayDataPtrSlice_built :
    ∀ entries : List (GoString × GoString × GoString × GoValue),
      ∃ js : List Json,
        marshalDisplayDataPtrSlice
          (entries.map (fun e => some (newDisplayData e.1 e.2.1 e.2.2.1 e.2.2.2))) = .ok js := by
  intro entries
  induction entries with
  | nil => exact ⟨[], rfl⟩
  | cons e es ih =>
    obtain ⟨js, hjs⟩ := ih
    obtain ⟨j, hj⟩ := marshalDisplayData_newDisplayData e.1 e.2.1 e.2.2.1 e.2.2.2
    exact ⟨j :: js, by simp only [List.map_cons, marshalDisplayDataPtrSlice, hj, hjs]⟩

/-- A slice of `output` records without coder reference always encodes. -/
theorem marshalOutputSlice_built :
    ∀ outs : List (GoString × GoString),
      ∃ js : List Json,
        marshalOutputSlice
          (outs.map (fun o => { UserName := o.1, OutputName := o.2, Encoding := none })) =
          .ok js := by
  intro outs
  induction outs with
  | nil => exact ⟨[], rfl⟩
  | cons o os ih =>
    obtain ⟨js, hjs⟩ := ih
    exact ⟨.obj (omitEmptyString "user_name" o.1 ++ omitEmptyString "output_name" o.2) :: js,
      by simp only [List.map_cons, marshalOutputSlice, marshalOutput, hjs]⟩

/-- The failure branch of `newMsg` is reachable: a `displayData` record that
carries a channel, which no builder produces, makes it panic. -/
theorem newMsg_displayData_chan_panics (d : displayData) (elem : String) (addr : Nat)
    (h : d.Value = .chan elem addr) :
    newMsg (.displayData d) = .error (.unsupportedType ("chan " ++ elem)) := by
  rw [newMsg_eq_jsonMarshal]
  simp [jsonMarshal, marshalDisplayData, omitEmptyInterface, marshalValue, h]

/-- C12: `newMsg` returns a document, and so never panics, on every record
assembled from the builders: a `displayData` from `newDisplayData` (for any
runtime value), a reference from `newOutputReference`, a custom-source step
from `newCustomSourceInputStep`, an `integer` from `newInteger`, a `userAgent`,
`version` or coder-free `output` of arbitrary strings, a `pipelineOptions` whose
entries come from `newDisplayData`, and a `properties` record whose display
data, custom-source step, parallel input and non-parallel inputs come from the
builders, whose outputs carry no coder reference and whose other fields are
arbitrary strings. -/
theorem newMsg_total_on_built_records :
    (∀ (key label namespace_ : GoString) (v : GoValue),
      ∃ doc : Json, newMsg (.displayData (newDisplayData key label namespace_ v)) = .ok doc) ∧
    (∀ step out : GoString,
      ∃ doc : Json, newMsg (.outputReference (newOutputReference step out)) = .ok doc) ∧
    (∀ src : GoString,
      ∃ doc : Json, newMsg (.customSourceInputStep (newCustomSourceInputStep src)) = .ok doc) ∧
    (∀ n : Int, ∃ doc : Json, newMsg (.integer (newInteger n)) = .ok doc) ∧
    (∀ name ver : GoString,
      ∃ doc : Json, newMsg (.userAgent { Name := name, Version := ver }) = .ok doc) ∧
    (∀ jobType major : GoString,
      ∃ doc : Json, newMsg (.version { JobType := jobType, Major := major }) = .ok doc) ∧
    (∀ userName outputName : GoString,
      ∃ doc : Json,
        newMsg (.output { UserName := userName, OutputName := outputName, Encoding := none }) =
          .ok doc) ∧
    (∀ entries : List (GoString × GoString × GoString × GoValue),
      ∃ doc : Json,
        newMsg (.pipelineOptions
          { DisplayData :=
              entries.map (fun e => some (newDisplayData e.1 e.2.1 e.2.2.1 e.2.2.2)) }) =
          .ok doc) ∧
    (∀ (userName format serializedFn : GoString)
        (entries : List (GoString × GoString × GoString × GoValue))
        (src : Option GoString) (par : Option (GoString × GoString))
        (inputs : List (GoString × GoString × GoString)) (outs : List (GoString × GoString)),
      ∃ doc : Json,
        newMsg (.properties
          { UserName := userName,
            DisplayData := entries.map (fun e => newDisplayData e.1 e.2.1 e.2.2.1 e.2.2.2),
            CustomSourceInputStep := src.map newCustomSourceInputStep,
            ParallelInput := par.map (fun r => newOutputReference r.1 r.2),
            NonParallelInputs :=
              inputs.map (fun e => (e.1, some (newOutputReference e.2.1 e.2.2))),
            Format := format,
            SerializedFn := serializedFn,
            OutputInfo :=
              outs.map (fun o => { UserName := o.1, OutputName := o.2, Encoding := none }) }) =
          .ok doc) := by
  refine ⟨?_, ?_, ?_, ?_, ?_, ?_, ?_, ?_, ?_⟩
  · intro key label namespace_ v
    obtain ⟨j, hj⟩ := marshalDisplayData_newDisplayData key label namespace_ v
    exact ⟨j, by rw [newMsg_eq_jsonMarshal]; exact hj⟩
  · intro step out; exact ⟨_, rfl⟩
  · intro src; exact ⟨_, rfl⟩
  · intro n; exact ⟨_, rfl⟩
  · intro name ver; exact ⟨_, rfl⟩
  · intro jobType major; exact ⟨_, rfl⟩
  · intro userName outputName; exact ⟨_, rfl⟩
  · intro entries
    obtain ⟨js, hjs⟩ := marshalDisplayDataPtrSlice_built entries
    refine ⟨.obj (omitEmptySlice "display_data" js), ?_⟩
    rw [newMsg_eq_jsonMarshal]
    simp only [jsonMarshal, marshalPipelineOptions, hjs]
  · intro userName format serializedFn entries src par inputs outs
    obtain ⟨dd, hdd⟩ := marshalDisplayDataSlice_built entries
    obtain ⟨oi, hoi⟩ := marshalOutputSlice_built outs
    rw [newMsg_eq_jsonMarshal]
    simp only [jsonMarshal, marshalProperties, hdd, hoi]
    exact ⟨_, rfl⟩

/-- C13, as stated, fails: the nil value and the string `<nil>` are two
different runtime values, and `newDisplayData` gives them the same `Type` and
the same `Value`. -/
theorem newDisplayData_not_injective :
    ¬ (∀ (key label namespace_ : GoString) (v1 v2 : GoValue), v1 ≠ v2 →
        (newDisplayData key label namespace_ v1).Type_ ≠
          (newDisplayData key label namespace_ v2).Type_ ∨
        (newDisplayData key label namespace_ v1).Value ≠
          (newDisplayData key label namespace_ v2).Value) := by
  intro h
  have hne : GoValue.nil ≠ GoValue.string (goString "<nil>") := by intro h0; cases h0
  rcases h (goString "k") (goString "l") (goString "ns") .nil (.string (goString "<nil>")) hne
    with h1 | h1
  · exact h1 rfl
  · exact h1 rfl

/-- C13, amended: for two runtime values that differ, the records
`newDisplayData` builds from them (same key, label and namespace) differ in
`Type` or in `Value` exactly when at least one of the two values is an integer
or a boolean, or the two values have different text renderings (a string being
its own rendering).  So the only values that share their `Type` and `Value` are
strings and fallback values with one and the same text. -/
theorem newDisplayData_differ_iff (key label namespace_ : GoString) (v1 v2 : GoValue)
    (hne : v1 ≠ v2) :
    ((newDisplayData key label namespace_ v1).Type_ ≠
        (newDisplayData key label namespace_ v2).Type_ ∨
      (newDisplayData key label namespace_ v1).Value ≠
        (newDisplayData key label namespace_ v2).Value) ↔
    (v1.isInteger = true ∨ v1.isBoolean = true ∨ v2.isInteger = true ∨ v2.isBoolean = true ∨
      sprintV v1 ≠ sprintV v2) := by
  have t1 : goString "INTEGER" ≠ goString "BOOLEAN" := by decide
  have t2 : goString "INTEGER" ≠ goString "STRING" := by decide
  have t3 : goString "BOOLEAN" ≠ goString "STRING" := by decide
  cases v1 <;> cases v2 <;>
    simp_all [newDisplayData, findDisplayDataType, GoValue.isInteger, GoValue.isBoolean,
      sprintV, t1.symm, t2.symm, t3.symm]

/-- Witness of C13 amended: nil and the string `<nil>` differ, neither is an
integer or a boolean, and they have the same rendering. -/
theorem newDisplayData_differ_iff_witness :
    ((newDisplayData (goString "k") (goString "l") (goString "ns") .nil).Type_ ≠
        (newDisplayData (goString "k") (goString "l") (goString "ns")
          (.string (goString "<nil>"))).Type_ ∨
      (newDisplayData (goString "k") (goString "l") (goString "ns") .nil).Value ≠
        (newDisplayData (goString "k") (goString "l") (goString "ns")
          (.string (goString "<nil>"))).Value) ↔
    (GoValue.nil.isInteger = true ∨ GoValue.nil.isBoolean = true ∨
      (GoValue.string (goString "<nil>")).isInteger = true ∨
      (GoValue.string (goString "<nil>")).isBoolean = true ∨
      sprintV .nil ≠ sprintV (.string (goString "<nil>"))) :=
  newDisplayData_differ_iff (goString "k") (goString "l") (goString "ns") .nil
    (.string (goString "<nil>")) (by intro h; cases h)

/-- C14: the document `newMsg` produces for a record from `newDisplayData` has
both a `type` key and a `value` key, whatever the runtime value; so it is for
the zero-like values 0, false, the empty string and nil, which encode with the
values `0`, `false`, the empty string and the string `<nil>`. -/
theorem newMsg_newDisplayData_has_type_and_value :
    (∀ (key label namespace_ : GoString) (v : GoValue),
      ∃ doc : Json,
        newMsg (.displayData (newDisplayData key label namespace_ v)) = .ok doc ∧
        "type" ∈ doc.keys ∧ "value" ∈ doc.keys) ∧
    newMsg (.displayData
        (newDisplayData (goString "k") (goString "l") (goString "ns") (.int .int 0))) =
      .ok (.obj [("key", .str "k"), ("label", .str "l"), ("namespace", .str "ns"),
        ("type", .str "INTEGER"), ("value", .num 0)]) ∧
    newMsg (.displayData
        (newDisplayData (goString "k") (goString "l") (goString "ns") (.bool false))) =
      .ok (.obj [("key", .str "k"), ("label", .str "l"), ("namespace", .str "ns"),
        ("type", .str "BOOLEAN"), ("value", .bool false)]) ∧
    newMsg (.displayData
        (newDisplayData (goString "k") (goString "l") (goString "ns") (.string []))) =
      .ok (.obj [("key", .str "k"), ("label", .str "l"), ("namespace", .str "ns"),
        ("type", .str "STRING"), ("value", .str "")]) ∧
    newMsg (.displayData (newDisplayData (goString "k") (goString "l") (goString "ns") .nil)) =
      .ok (.obj [("key", .str "k"), ("label", .str "l"), ("namespace", .str "ns"),
        ("type", .str "STRING"), ("value", .str "<nil>")]) := by
  refine ⟨?_, rfl, rfl, rfl, rfl⟩
  intro key label namespace_ v
  cases v <;> refine ⟨_, rfl, ?_, ?_⟩ <;>
    simp [Json.keys, mem_omitEmptyString, newDisplayData, findDisplayDataType,
      goString_eq_nil_iff]

/-- C15, as stated, fails: for the serialized source made of the two bytes
`0xff 0xfe`, which is not valid UTF-8, the value under `serialized_source` is
the text of two U+FFFD and not the serialized source. -/
theorem newMsg_newCustomSourceInputStep_source_fails :
    ¬ (∀ s : GoString, s ≠ [] →
        ∃ t : String, goString t = s ∧
          newMsg (.customSourceInputStep (newCustomSourceInputStep s)) =
            .ok (.obj
              [("spec", .obj
                [("@type", .str "CustomSourcesType"), ("serialized_source", .str t)]),
               ("metadata", .obj
                 [("estimated_size_bytes", .obj
                   [("@type", .str "http://schema.org/Integer"),
                    ("value", .num 5242880)])])])) := by
  intro h
  obtain ⟨t, ht, hdoc⟩ := h [0xff, 0xfe] (by decide)
  have h2 : newMsg (.customSourceInputStep (newCustomSourceInputStep [0xff, 0xfe])) =
      .ok (.obj
        [("spec", .obj
          [("@type", .str "CustomSourcesType"), ("serialized_source", .str "\uFFFD\uFFFD")]),
         ("metadata", .obj
           [("estimated_size_bytes", .obj
             [("@type", .str "http://schema.org/Integer"), ("value", .num 5242880)])])]) := rfl
  rw [h2] at hdoc
  simp only [Except.ok.injEq, Json.obj.injEq, List.cons.injEq, Prod.mk.injEq, Json.str.injEq,
    true_and, and_true] at hdoc
  subst hdoc
  revert ht
  decide

/-- C15, amended: for a non-empty serialized source `s`, the document for
`newCustomSourceInputStep(s)` has exactly the two keys `spec` and `metadata`,
in this order; `spec` is the object with `@type` = `CustomSourcesType` and
`serialized_source`, and `metadata` the object with the one key
`estimated_size_bytes`, itself the object with `@type` =
`http://schema.org/Integer` and `value` = 5242880.  The value under
`serialized_source` is the JSON string `json.Marshal` writes for `s`: `s`
itself when `s` is valid UTF-8 (the bytes of a text), and in general `s` with
every invalid byte replaced by U+FFFD. -/
theorem newMsg_newCustomSourceInputStep (s : GoString) (hs : s ≠ []) :
    newMsg (.customSourceInputStep (newCustomSourceInputStep s)) =
      .ok (.obj
        [("spec", .obj
          [("@type", .str "CustomSourcesType"), ("serialized_source", .str (jsonText s))]),
         ("metadata", .obj
           [("estimated_size_bytes", .obj
             [("@type", .str "http://schema.org/Integer"), ("value", .num 5242880)])])]) ∧
    (∀ t : String, goString t = s → jsonText s = t) := by
  constructor
  · rw [newMsg_eq_jsonMarshal]
    simp [jsonMarshal, marshalCustomSourceInputStep, marshalCustomSourceInputStepSpec,
      marshalCustomSourceInputStepMetadata, marshalInteger, newCustomSourceInputStep,
      newInteger, omitEmptyString, omitEmptyInt, omitEmptyPtr, hs, goString_eq_nil_iff,
      jsonText_goString]
  · intro t ht
    rw [← ht, jsonText_goString]

/-- Witness of C15 amended, at the serialized source `abc`. -/
theorem newMsg_newCustomSourceInputStep_witness :
    newMsg (.customSourceInputStep (newCustomSourceInputStep (goString "abc"))) =
      .ok (.obj
        [("spec", .obj
          [("@type", .str "CustomSourcesType"), ("serialized_source", .str "abc")]),
         ("metadata", .obj
           [("estimated_size_bytes", .obj
             [("@type", .str "http://schema.org/Integer"), ("value", .num 5242880)])])]) :=
  (newMsg_newCustomSourceInputStep (goString "abc") (by decide)).1

/-- C16: the document for `newInteger(n)` always has `@type` =
`http://schema.org/Integer`; it has a `value` key, holding `n`, exactly when
`n` is not 0.  For `newInteger(0)` the document has the `@type` key only, the
same document as for an `integer` record whose `Value` was never set. -/
theorem newMsg_newInteger (n : Int) :
    (∃ doc : Json,
      newMsg (.integer (newInteger n)) = .ok doc ∧
      doc.lookup "@type" = some (.str "http://schema.org/Integer") ∧
      ("value" ∈ doc.keys ↔ n ≠ 0) ∧
      doc.lookup "value" = if n = 0 then none else some (.num n)) ∧
    newMsg (.integer (newInteger 0)) =
      .ok (.obj [("@type", .str "http://schema.org/Integer")]) ∧
    newMsg (.integer (newInteger 0)) =
      newMsg (.integer { Type_ := goString "http://schema.org/Integer" }) := by
  refine ⟨⟨marshalInteger (newInteger n), rfl, ?_, ?_, ?_⟩, rfl, rfl⟩
  · by_cases h : n = 0 <;>
      simp [marshalInteger, newInteger, omitEmptyString, omitEmptyInt, Json.lookup, h,
        goString_eq_nil_iff, jsonText_goString]
  · by_cases h : n = 0 <;>
      simp [marshalInteger, newInteger, omitEmptyString, omitEmptyInt, Json.keys, h,
        goString_eq_nil_iff, jsonText_goString]
  · by_cases h : n = 0 <;>
      simp [marshalInteger, newInteger, omitEmptyString, omitEmptyInt, Json.lookup, h,
        goString_eq_nil_iff, jsonText_goString]

end Dataflow
